import Mathlib

/-!
Verification of the influxdb storage-engine inspection tooling.

Shallow embedding of:
  * `cmd/influxd/inspect/verify_tsm/verify_tsm.go` (the `verify-tsm`
    command: checksum mode and `--check-utf8` mode),
  * the `verify-tombstone` command (`cmd/influxd/inspect/verify_tombstone`),
  * the storage engine `Config` / `DefaultWriteTimeout` constants,
together with a bit-level model of `hash/crc32.ChecksumIEEE` and of
`unicode/utf8.Valid`, used by the tooling.

Go machine integers are modelled as `Nat` (bytes are `Nat`s below 256,
`uint32` values are `Nat`s below `2 ^ 32`); fallible Go calls returning
`error` are modelled with `Except String`; the sequence of `Printf` calls
a command makes is modelled as a list of output events.
-/

namespace InfluxVerify

/-! ## CRC-32 (IEEE), as computed by Go `hash/crc32.ChecksumIEEE`.

Go computes the reflected CRC-32 with polynomial `0xEDB88320` via a lookup
table; the table-driven algorithm is equivalent to the classic bitwise one
embedded here: start from `0xFFFFFFFF`, for each byte XOR it into the low
bits of the state and perform eight conditional shift-XOR steps, and
finally complement the state. -/

/-- The reflected CRC-32 (IEEE) polynomial used by `hash/crc32`. -/
def crc32Poly : Nat := 0xEDB88320

/-- One bit step of the reflected CRC-32: shift right, XOR the polynomial
when the bit shifted out was set. -/
def crc32Step1 (c : Nat) : Nat :=
  if c % 2 = 1 then (c / 2) ^^^ crc32Poly else c / 2

/-- Eight bit steps. -/
def crc32Step8 (c : Nat) : Nat :=
  crc32Step1 (crc32Step1 (crc32Step1 (crc32Step1
    (crc32Step1 (crc32Step1 (crc32Step1 (crc32Step1 c)))))))

/-- Feed one byte into the CRC state. -/
def crc32UpdateByte (c b : Nat) : Nat := crc32Step8 (c ^^^ b)

/-- Run the CRC state over a byte list. -/
def crc32Run (c : Nat) : List Nat → Nat
  | [] => c
  | b :: bs => crc32Run (crc32UpdateByte c b) bs

/-- `crc32.ChecksumIEEE`: CRC-32 of a byte sequence, with the standard
initial value and final complement. -/
def ChecksumIEEE (data : List Nat) : Nat :=
  crc32Run 0xFFFFFFFF data ^^^ 0xFFFFFFFF

/-- A byte list: every element fits in 8 bits. -/
abbrev BytesValid (bs : List Nat) : Prop := ∀ b ∈ bs, b < 256

/-! ### Bounds and injectivity of the CRC steps -/

theorem crc32Poly_lt : crc32Poly < 2 ^ 32 := by decide

theorem crc32Step1_lt {c : Nat} (h : c < 2 ^ 32) : crc32Step1 c < 2 ^ 32 := by
  unfold crc32Step1
  have hdiv : c / 2 < 2 ^ 32 := Nat.lt_of_le_of_lt (Nat.div_le_self c 2) h
  split
  · exact Nat.xor_lt_two_pow hdiv crc32Poly_lt
  · exact hdiv

theorem crc32Step8_lt {c : Nat} (h : c < 2 ^ 32) : crc32Step8 c < 2 ^ 32 := by
  unfold crc32Step8
  exact crc32Step1_lt (crc32Step1_lt (crc32Step1_lt (crc32Step1_lt
    (crc32Step1_lt (crc32Step1_lt (crc32Step1_lt (crc32Step1_lt h)))))))

theorem testBit31_div2 {a : Nat} (h : a < 2 ^ 32) :
    Nat.testBit (a / 2) 31 = false :=
  Nat.testBit_lt_two_pow (Nat.div_lt_of_lt_mul (by omega))

/-- The one-bit CRC step is injective on 32-bit states: bit 31 of the
output recovers the bit shifted out (because the polynomial's top bit is
set), and the remaining bits recover the rest. -/
theorem crc32Step1_inj {a b : Nat} (ha : a < 2 ^ 32) (hb : b < 2 ^ 32)
    (h : crc32Step1 a = crc32Step1 b) : a = b := by
  unfold crc32Step1 at h
  have hpoly : Nat.testBit crc32Poly 31 = true := by decide
  rcases Nat.mod_two_eq_zero_or_one a with ha2 | ha2 <;>
    rcases Nat.mod_two_eq_zero_or_one b with hb2 | hb2
  · -- both even: the shifted values agree
    rw [if_neg (by omega), if_neg (by omega)] at h
    omega
  · -- a even, b odd: bit 31 of the two sides differs
    rw [if_neg (by omega), if_pos hb2] at h
    have h31 := congrArg (fun x => Nat.testBit x 31) h
    simp [Nat.testBit_xor, testBit31_div2 ha, testBit31_div2 hb, hpoly] at h31
  · -- a odd, b even: symmetric
    rw [if_pos ha2, if_neg (by omega)] at h
    have h31 := congrArg (fun x => Nat.testBit x 31) h
    simp [Nat.testBit_xor, testBit31_div2 ha, testBit31_div2 hb, hpoly] at h31
  · -- both odd: cancel the polynomial
    rw [if_pos ha2, if_pos hb2] at h
    have : a / 2 = b / 2 := by
      have := congrArg (fun x => x ^^^ crc32Poly) h
      simpa [Nat.xor_cancel_right] using this
    omega

theorem crc32Step8_inj {a b : Nat} (ha : a < 2 ^ 32) (hb : b < 2 ^ 32)
    (h : crc32Step8 a = crc32Step8 b) : a = b := by
  unfold crc32Step8 at h
  have l1 := crc32Step1_lt ha
  have l2 := crc32Step1_lt l1
  have l3 := crc32Step1_lt l2
  have l4 := crc32Step1_lt l3
  have l5 := crc32Step1_lt l4
  have l6 := crc32Step1_lt l5
  have l7 := crc32Step1_lt l6
  have m1 := crc32Step1_lt hb
  have m2 := crc32Step1_lt m1
  have m3 := crc32Step1_lt m2
  have m4 := crc32Step1_lt m3
  have m5 := crc32Step1_lt m4
  have m6 := crc32Step1_lt m5
  have m7 := crc32Step1_lt m6
  exact crc32Step1_inj ha hb (crc32Step1_inj l1 m1 (crc32Step1_inj l2 m2
    (crc32Step1_inj l3 m3 (crc32Step1_inj l4 m4 (crc32Step1_inj l5 m5
    (crc32Step1_inj l6 m6 (crc32Step1_inj l7 m7 h)))))))

theorem crc32UpdateByte_lt {c b : Nat} (hc : c < 2 ^ 32) (hb : b < 256) :
    crc32UpdateByte c b < 2 ^ 32 :=
  crc32Step8_lt (Nat.xor_lt_two_pow hc (by omega))

theorem crc32UpdateByte_inj {c₁ c₂ b : Nat} (h1 : c₁ < 2 ^ 32)
    (h2 : c₂ < 2 ^ 32) (hb : b < 256)
    (h : crc32UpdateByte c₁ b = crc32UpdateByte c₂ b) : c₁ = c₂ := by
  unfold crc32UpdateByte at h
  have hb32 : b < 2 ^ 32 := by omega
  have := crc32Step8_inj (Nat.xor_lt_two_pow h1 hb32)
    (Nat.xor_lt_two_pow h2 hb32) h
  have := congrArg (fun x => x ^^^ b) this
  simpa [Nat.xor_cancel_right] using this

theorem crc32Run_lt {c : Nat} {bs : List Nat} (hc : c < 2 ^ 32)
    (hbs : BytesValid bs) : crc32Run c bs < 2 ^ 32 := by
  induction bs generalizing c with
  | nil => exact hc
  | cons b bs ih =>
      exact ih (crc32UpdateByte_lt hc (hbs b (by simp)))
        (fun x hx => hbs x (by simp [hx]))

theorem crc32Run_inj {c₁ c₂ : Nat} {bs : List Nat} (h1 : c₁ < 2 ^ 32)
    (h2 : c₂ < 2 ^ 32) (hbs : BytesValid bs)
    (h : crc32Run c₁ bs = crc32Run c₂ bs) : c₁ = c₂ := by
  induction bs generalizing c₁ c₂ with
  | nil => exact h
  | cons b bs ih =>
      have hb : b < 256 := hbs b (by simp)
      have htail : BytesValid bs := fun x hx => hbs x (by simp [hx])
      exact crc32UpdateByte_inj h1 h2 hb
        (ih (crc32UpdateByte_lt h1 hb) (crc32UpdateByte_lt h2 hb) htail h)

theorem crc32Run_append (c : Nat) (xs ys : List Nat) :
    crc32Run c (xs ++ ys) = crc32Run (crc32Run c xs) ys := by
  induction xs generalizing c with
  | nil => rfl
  | cons x xs ih =>
      rw [List.cons_append]
      show crc32Run (crc32UpdateByte c x) (xs ++ ys) =
        crc32Run (crc32Run (crc32UpdateByte c x) xs) ys
      exact ih _

/-- Flip bit `k` of byte index `j` in a byte list. -/
def flipBit (bs : List Nat) (j k : Nat) : List Nat :=
  bs.take j ++ (bs.getD j 0 ^^^ 2 ^ k) :: bs.drop (j + 1)

/-- Flipping a single bit of any byte changes the CRC-32 checksum. -/
theorem crc32_flip_ne {bs : List Nat} {j k : Nat} (hbs : BytesValid bs)
    (hj : j < bs.length) (hk : k < 8) :
    ChecksumIEEE (flipBit bs j k) ≠ ChecksumIEEE bs := by
  intro hEq
  -- strip the final complement
  have hRun : crc32Run 0xFFFFFFFF (flipBit bs j k) =
      crc32Run 0xFFFFFFFF bs := by
    unfold ChecksumIEEE at hEq
    have := congrArg (fun x => x ^^^ 0xFFFFFFFF) hEq
    simpa [Nat.xor_cancel_right] using this
  -- decompose the original list around byte j
  have hsplit : bs = bs.take j ++ bs.getD j 0 :: bs.drop (j + 1) := by
    conv_lhs => rw [← List.take_append_drop j bs]
    rw [List.drop_eq_getElem_cons hj, List.getD_eq_getElem bs 0 hj]
  have htake : BytesValid (bs.take j) := fun x hx => hbs x (List.mem_of_mem_take hx)
  have hdrop : BytesValid (bs.drop (j + 1)) := fun x hx => hbs x (List.mem_of_mem_drop hx)
  have hbj : bs.getD j 0 < 256 := by
    rw [List.getD_eq_getElem bs 0 hj]; exact hbs _ (List.getElem_mem hj)
  have hflip : bs.getD j 0 ^^^ 2 ^ k < 256 := by
    have h2k : 2 ^ k < 256 := by
      calc 2 ^ k < 2 ^ 8 := Nat.pow_lt_pow_right (by omega) hk
      _ = 256 := by norm_num
    exact Nat.xor_lt_two_pow (n := 8) hbj h2k
  -- the state after the common run
  set c : Nat := crc32Run 0xFFFFFFFF (bs.take j) with hc
  have hcLt : c < 2 ^ 32 := crc32Run_lt (by norm_num) htake
  have hRun2 : crc32Run (crc32UpdateByte c (bs.getD j 0 ^^^ 2 ^ k)) (bs.drop (j + 1)) =
      crc32Run (crc32UpdateByte c (bs.getD j 0)) (bs.drop (j + 1)) := by
    have lhs : crc32Run 0xFFFFFFFF (flipBit bs j k) =
        crc32Run (crc32UpdateByte c (bs.getD j 0 ^^^ 2 ^ k)) (bs.drop (j + 1)) := by
      rw [flipBit, crc32Run_append]; rfl
    have rhs : crc32Run 0xFFFFFFFF bs =
        crc32Run (crc32UpdateByte c (bs.getD j 0)) (bs.drop (j + 1)) := by
      conv_lhs => rw [hsplit]
      rw [crc32Run_append]; rfl
    rw [← lhs, ← rhs, hRun]
  -- peel the suffix, the flipped byte, and the XOR
  have hUpd := crc32Run_inj (crc32UpdateByte_lt hcLt hflip)
    (crc32UpdateByte_lt hcLt hbj) hdrop hRun2
  unfold crc32UpdateByte at hUpd
  have hbj32 : bs.getD j 0 < 2 ^ 32 := by omega
  have hflip32 : bs.getD j 0 ^^^ 2 ^ k < 2 ^ 32 := by omega
  have hXor := crc32Step8_inj (Nat.xor_lt_two_pow hcLt hflip32)
    (Nat.xor_lt_two_pow hcLt hbj32) hUpd
  have : bs.getD j 0 ^^^ 2 ^ k = bs.getD j 0 := by
    have := congrArg (fun x => c ^^^ x) hXor
    simpa [Nat.xor_cancel_left] using this
  have hbit := congrArg (fun x => Nat.testBit x k) this
  simp [Nat.testBit_xor, Nat.testBit_two_pow] at hbit

set_option maxRecDepth 8000 in
/-- Sanity check: the well-known CRC-32 check value for the ASCII string
"123456789" is `0xCBF43926`. -/
theorem checksumIEEE_check_value :
    ChecksumIEEE [0x31, 0x32, 0x33, 0x34, 0x35, 0x36, 0x37, 0x38, 0x39] =
      0xCBF43926 := by decide

/-! ## `verify-tsm` (`cmd/influxd/inspect/verify_tsm/verify_tsm.go`)

The command walks the engine path, collects `.tsm` files, and runs one of
two verifiers (`verifyChecksums` by default, `verifyUTF8` under
`--check-utf8`).  The `tsm1.TSMReader` itself is not part of the sources
here, so a file is modelled by what the verifiers observe of it. -/

/-- One item yielded by `TSMReader.BlockIterator`, as consumed by
`verifyChecksums.run`: `blockItr.Read()` returns the key, the stored
checksum, the raw block bytes, and possibly an error.

Modelled from the spec: `tsm1.TSMReader.BlockIterator` is not under
`src/`; per §4.3 it is a forward scan over every block in file order
delivering raw bytes plus the stored checksum without decoding payloads,
and a read may fail (`readErr`). -/
structure Block where
  key : List Nat
  checksum : Nat
  buf : List Nat
  readErr : Bool
  deriving Repr, DecidableEq

/-- A `.tsm` file as observed through a successfully constructed
`tsm1.TSMReader`.

Modelled from the spec: `tsm1.TSMReader` is not under `src/`; per §4.3 it
exposes `KeyCount`/`KeyAt` (ordinal enumeration of the index keys, here
the list `keys`) and `BlockIterator` (the list `blocks`). -/
structure TSMFile where
  path : String
  keys : List (List Nat)
  blocks : List Block
  deriving Repr, DecidableEq

/-- One `PrintErrf` event of `verify-tsm`. -/
inductive Output where
  /-- "could not get checksum for key … block `count` due to error …" -/
  | readErrMsg (file : String) (blockIdx : Nat)
  /-- "got `got` but expected `expected` for key …, block `count`" -/
  | mismatch (file : String) (got expected : Nat) (blockIdx : Nat)
  /-- "`file`: healthy" -/
  | healthy (file : String)
  /-- "`file`: key #`keyIdx` is not valid UTF-8" -/
  | invalidKey (file : String) (keyIdx : Nat)
  /-- "Broken Blocks: `bad` / `total`, in …s" -/
  | brokenSummary (bad total : Nat)
  /-- "Invalid Keys: `bad` / `total`, in …s" -/
  | invalidKeySummary (bad total : Nat)
  deriving Repr, DecidableEq

/-- The inner block loop of `verifyChecksums.run` (verify_tsm.go lines
125-142).  State: `total` and `totalErrors` are the `verifyChecksums`
counters, `fileErrors` and `count` the per-file locals.  Returns the
printed events and the final `(total, totalErrors, fileErrors)`. -/
def checksumBlocksLoop (verbose : Bool) (fname : String) :
    List Block → Nat → Nat → Nat → Nat → List Output × Nat × Nat × Nat
  | [], total, totalErrors, fileErrors, _count =>
      ([], total, totalErrors, fileErrors)
  | b :: bs, total, totalErrors, fileErrors, count =>
      if b.readErr then
        let out := if verbose then [Output.readErrMsg fname count] else []
        let rest := checksumBlocksLoop verbose fname bs (total + 1)
          (totalErrors + 1) (fileErrors + 1) (count + 1)
        (out ++ rest.1, rest.2)
      else if b.checksum ≠ ChecksumIEEE b.buf then
        let out := if verbose
          then [Output.mismatch fname b.checksum (ChecksumIEEE b.buf) count]
          else []
        let rest := checksumBlocksLoop verbose fname bs (total + 1)
          (totalErrors + 1) (fileErrors + 1) (count + 1)
        (out ++ rest.1, rest.2)
      else
        checksumBlocksLoop verbose fname bs (total + 1) totalErrors
          fileErrors (count + 1)

/-- The file loop of `verifyChecksums.run` (verify_tsm.go lines 106-151).
Each entry of `files` is the result of `v.tsmReader()`: `Except.error`
when opening the file or constructing the reader failed (which aborts the
whole run), `Except.ok` the observed file otherwise.  After the loop the
summary line is printed and `nil` is returned. -/
def checksumFilesLoop (verbose : Bool) :
    List (Except String TSMFile) → Nat → Nat → List Output × Except String Unit
  | [], totalErrors, total =>
      ([Output.brokenSummary totalErrors total], Except.ok ())
  | Except.error e :: _, _, _ => ([], Except.error e)
  | Except.ok f :: rest, totalErrors, total =>
      let r := checksumBlocksLoop verbose f.path f.blocks total totalErrors 0 0
      let outs := if r.2.2.2 == 0 && verbose
        then r.1 ++ [Output.healthy f.path] else r.1
      let next := checksumFilesLoop verbose rest r.2.2.1 r.2.1
      (outs ++ next.1, next.2)

/-- `verifyChecksums.run`, given the per-file reader outcomes for the
`.tsm` files discovered under the engine path (in discovery order). -/
def verifyChecksumsRun (verbose : Bool)
    (files : List (Except String TSMFile)) :
    List Output × Except String Unit :=
  checksumFilesLoop verbose files 0 0

/-- The block predicate counted by `verifyChecksums.run`: the read failed,
or the recomputed CRC-32 of the raw bytes differs from the stored
checksum. -/
def blockBroken (b : Block) : Bool :=
  b.readErr || b.checksum != ChecksumIEEE b.buf

/-- Total number of blocks yielded by the block iterators of `files`. -/
def totalBlocks (files : List TSMFile) : Nat :=
  (files.map (fun f => f.blocks.length)).sum

/-- Number of broken blocks across `files`. -/
def brokenBlocks (files : List TSMFile) : Nat :=
  (files.map (fun f => f.blocks.countP blockBroken)).sum

/-- The inner block loop advances the three counters by the number of
blocks and the number of broken blocks. -/
theorem checksumBlocksLoop_counts (verbose : Bool) (fname : String)
    (bs : List Block) :
    ∀ total totalErrors fileErrors count,
      (checksumBlocksLoop verbose fname bs total totalErrors fileErrors count).2 =
        (total + bs.length, totalErrors + bs.countP blockBroken,
          fileErrors + bs.countP blockBroken) := by
  induction bs with
  | nil => intro total te fe c; simp [checksumBlocksLoop]
  | cons b bs ih =>
      intro total te fe c
      by_cases hr : b.readErr
      · have hb : blockBroken b = true := by simp [blockBroken, hr]
        simp [checksumBlocksLoop, hr, ih, List.countP_cons, hb]
        omega
      · by_cases hc : b.checksum = ChecksumIEEE b.buf
        · have hb : blockBroken b = false := by
            simp [blockBroken, hr, hc]
          simp [checksumBlocksLoop, hr, hc, ih, List.countP_cons, hb]
          omega
        · have hb : blockBroken b = true := by
            simp [blockBroken, hr, bne_iff_ne, hc]
          simp [checksumBlocksLoop, hr, hc, ih, List.countP_cons, hb]
          omega

/-- The inner block loop prints only per-block messages, never a summary
line. -/
theorem checksumBlocksLoop_no_summary (verbose : Bool) (fname : String)
    (bs : List Block) :
    ∀ total totalErrors fileErrors count bad tot,
      Output.brokenSummary bad tot ∉
        (checksumBlocksLoop verbose fname bs total totalErrors fileErrors count).1 ∧
      Output.invalidKeySummary bad tot ∉
        (checksumBlocksLoop verbose fname bs total totalErrors fileErrors count).1 := by
  induction bs with
  | nil => intro total te fe c bad tot; simp [checksumBlocksLoop]
  | cons b bs ih =>
      intro total te fe c bad tot
      by_cases hr : b.readErr
      · cases verbose <;>
          simp [checksumBlocksLoop, hr, ih total.succ te.succ fe.succ c.succ bad tot]
      · by_cases hc : b.checksum = ChecksumIEEE b.buf
        · simpa [checksumBlocksLoop, hr, hc] using
            ih total.succ te fe c.succ bad tot
        · cases verbose <;>
            simp [checksumBlocksLoop, hr, hc,
              ih total.succ te.succ fe.succ c.succ bad tot]

/-- When every reader construction succeeds, the checksum file loop
returns `nil` (verify_tsm.go line 150). -/
theorem checksumFilesLoop_ok_snd (verbose : Bool) (files : List TSMFile) :
    ∀ totalErrors total,
      (checksumFilesLoop verbose (files.map Except.ok) totalErrors total).2 =
        Except.ok () := by
  induction files with
  | nil => intro te t; simp [checksumFilesLoop]
  | cons f fs ih =>
      intro te t
      simp only [List.map_cons, checksumFilesLoop]
      exact ih _ _

/-- When every reader construction succeeds, the checksum file loop prints
a summary line carrying the accumulated broken/total counts. -/
theorem checksumFilesLoop_summary (verbose : Bool) (files : List TSMFile) :
    ∀ totalErrors total,
      Output.brokenSummary (totalErrors + brokenBlocks files)
          (total + totalBlocks files) ∈
        (checksumFilesLoop verbose (files.map Except.ok) totalErrors total).1 := by
  induction files with
  | nil =>
      intro te t
      simp [checksumFilesLoop, brokenBlocks, totalBlocks]
  | cons f fs ih =>
      intro te t
      have hcounts := checksumBlocksLoop_counts verbose f.path f.blocks t te 0 0
      have h2 := ih (te + f.blocks.countP blockBroken) (t + f.blocks.length)
      have e1 : te + brokenBlocks (f :: fs) =
          te + f.blocks.countP blockBroken + brokenBlocks fs := by
        simp [brokenBlocks]; omega
      have e2 : t + totalBlocks (f :: fs) =
          t + f.blocks.length + totalBlocks fs := by
        simp [totalBlocks]; omega
      simp only [List.map_cons, checksumFilesLoop, hcounts]
      rw [e1, e2]
      exact List.mem_append_right _ h2

/-! ## `unicode/utf8.Valid` -/

/-- A UTF-8 continuation byte: `0x80 ≤ b ≤ 0xBF`. -/
def contByte (b : Nat) : Bool := 0x80 ≤ b && b ≤ 0xBF

/-- Go `unicode/utf8.Valid`: the byte sequence is a well-formed UTF-8
encoding (rejecting overlong forms, surrogates, and code points above
U+10FFFF, exactly as Go's `acceptRanges` table does). -/
def validUTF8 : List Nat → Bool
  | [] => true
  | b0 :: rest =>
    if b0 < 0x80 then validUTF8 rest
    else if b0 < 0xC2 then false
    else if b0 ≤ 0xDF then
      match rest with
      | b1 :: rest2 => contByte b1 && validUTF8 rest2
      | [] => false
    else if b0 ≤ 0xEF then
      match rest with
      | b1 :: b2 :: rest3 =>
        let lo := if b0 = 0xE0 then 0xA0 else 0x80
        let hi := if b0 = 0xED then 0x9F else 0xBF
        (lo ≤ b1 && b1 ≤ hi) && contByte b2 && validUTF8 rest3
      | _ => false
    else if b0 ≤ 0xF4 then
      match rest with
      | b1 :: b2 :: b3 :: rest4 =>
        let lo := if b0 = 0xF0 then 0x90 else 0x80
        let hi := if b0 = 0xF4 then 0x8F else 0xBF
        (lo ≤ b1 && b1 ≤ hi) && contByte b2 && contByte b3 && validUTF8 rest4
      | _ => false
    else false

/-! ## `verifyUTF8.run` (verify_tsm.go lines 64-104) -/

/-- The inner key loop of `verifyUTF8.run` (lines 83-92): iterate the
index keys ordinally (`KeyAt i` for `i` from `0` to `KeyCount()-1`),
counting keys that are not valid UTF-8.  Returns the printed events and
the final `(totalErrors, fileErrors)`. -/
def utf8KeysLoop (verbose : Bool) (fname : String) :
    List (List Nat) → Nat → Nat → Nat → List Output × Nat × Nat
  | [], _i, totalErrors, fileErrors => ([], totalErrors, fileErrors)
  | key :: ks, i, totalErrors, fileErrors =>
      if validUTF8 key then
        utf8KeysLoop verbose fname ks (i + 1) totalErrors fileErrors
      else
        let out := if verbose then [Output.invalidKey fname i] else []
        let rest := utf8KeysLoop verbose fname ks (i + 1)
          (totalErrors + 1) (fileErrors + 1)
        (out ++ rest.1, rest.2)

/-- The file loop of `verifyUTF8.run`: `v.total += n` before the key loop;
after all files, the summary is printed and a non-`nil` error is returned
exactly when `totalErrors > 0` (lines 98-101). -/
def utf8FilesLoop (verbose : Bool) :
    List (Except String TSMFile) → Nat → Nat → List Output × Except String Unit
  | [], totalErrors, total =>
      ([Output.invalidKeySummary totalErrors total],
        if totalErrors > 0 then Except.error "check-utf8: failed"
        else Except.ok ())
  | Except.error e :: _, _, _ => ([], Except.error e)
  | Except.ok f :: rest, totalErrors, total =>
      let r := utf8KeysLoop verbose f.path f.keys 0 totalErrors 0
      let outs := if r.2.2 == 0 && verbose
        then r.1 ++ [Output.healthy f.path] else r.1
      let next := utf8FilesLoop verbose rest r.2.1 (total + f.keys.length)
      (outs ++ next.1, next.2)

/-- `verifyUTF8.run`, given the per-file reader outcomes for the `.tsm`
files discovered under the engine path (in discovery order). -/
def verifyUTF8Run (verbose : Bool) (files : List (Except String TSMFile)) :
    List Output × Except String Unit :=
  utf8FilesLoop verbose files 0 0

/-- Total number of index keys across `files` (sum of `KeyCount`). -/
def totalKeys (files : List TSMFile) : Nat :=
  (files.map (fun f => f.keys.length)).sum

/-- Number of `(file, key-index)` pairs whose key is not valid UTF-8. -/
def invalidKeys (files : List TSMFile) : Nat :=
  (files.map (fun f => f.keys.countP (fun k => !validUTF8 k))).sum

/-- The key loop advances both counters by the number of invalid keys. -/
theorem utf8KeysLoop_counts (verbose : Bool) (fname : String)
    (ks : List (List Nat)) :
    ∀ i totalErrors fileErrors,
      (utf8KeysLoop verbose fname ks i totalErrors fileErrors).2 =
        (totalErrors + ks.countP (fun k => !validUTF8 k),
          fileErrors + ks.countP (fun k => !validUTF8 k)) := by
  induction ks with
  | nil => intro i te fe; simp [utf8KeysLoop]
  | cons k ks ih =>
      intro i te fe
      by_cases hv : validUTF8 k
      · simp [utf8KeysLoop, hv, ih, List.countP_cons]
      · simp [utf8KeysLoop, hv, ih, List.countP_cons]
        omega

/-- The key loop prints only per-key messages, never a summary line. -/
theorem utf8KeysLoop_no_summary (verbose : Bool) (fname : String)
    (ks : List (List Nat)) :
    ∀ i totalErrors fileErrors bad tot,
      Output.brokenSummary bad tot ∉
        (utf8KeysLoop verbose fname ks i totalErrors fileErrors).1 ∧
      Output.invalidKeySummary bad tot ∉
        (utf8KeysLoop verbose fname ks i totalErrors fileErrors).1 := by
  induction ks with
  | nil => intro i te fe bad tot; simp [utf8KeysLoop]
  | cons k ks ih =>
      intro i te fe bad tot
      by_cases hv : validUTF8 k
      · simpa [utf8KeysLoop, hv] using ih i.succ te fe bad tot
      · cases verbose <;>
          simp [utf8KeysLoop, hv, ih i.succ te.succ fe.succ bad tot]

/-- When every reader construction succeeds, the UTF-8 file loop returns a
non-`nil` error exactly when the accumulated invalid-key count is
positive. -/
theorem utf8FilesLoop_ok_snd (verbose : Bool) (files : List TSMFile) :
    ∀ totalErrors total,
      (utf8FilesLoop verbose (files.map Except.ok) totalErrors total).2 =
        (if totalErrors + invalidKeys files > 0
          then Except.error "check-utf8: failed" else Except.ok ()) := by
  induction files with
  | nil => intro te t; simp [utf8FilesLoop, invalidKeys]
  | cons f fs ih =>
      intro te t
      have hcounts := utf8KeysLoop_counts verbose f.path f.keys 0 te 0
      have e1 : te + f.keys.countP (fun k => !validUTF8 k) + invalidKeys fs =
          te + invalidKeys (f :: fs) := by
        simp [invalidKeys]; omega
      simp only [List.map_cons, utf8FilesLoop, hcounts]
      rw [ih, e1]

/-- When every reader construction succeeds, the UTF-8 file loop prints a
summary line carrying the accumulated invalid/total counts. -/
theorem utf8FilesLoop_summary (verbose : Bool) (files : List TSMFile) :
    ∀ totalErrors total,
      Output.invalidKeySummary (totalErrors + invalidKeys files)
          (total + totalKeys files) ∈
        (utf8FilesLoop verbose (files.map Except.ok) totalErrors total).1 := by
  induction files with
  | nil =>
      intro te t
      simp [utf8FilesLoop, invalidKeys, totalKeys]
  | cons f fs ih =>
      intro te t
      have hcounts := utf8KeysLoop_counts verbose f.path f.keys 0 te 0
      have h2 := ih (te + f.keys.countP (fun k => !validUTF8 k))
        (t + f.keys.length)
      have e1 : te + invalidKeys (f :: fs) =
          te + f.keys.countP (fun k => !validUTF8 k) + invalidKeys fs := by
        simp [invalidKeys]; omega
      have e2 : t + totalKeys (f :: fs) =
          t + f.keys.length + totalKeys fs := by
        simp [totalKeys]; omega
      simp only [List.map_cons, utf8FilesLoop, hcounts]
      rw [e1, e2]
      exact List.mem_append_right _ h2

/-! ## Abort behaviour of both `verify-tsm` modes

In both file loops, a failing `v.tsmReader()` call makes `run` return
that error immediately: later files are never examined and the summary
line is never printed. -/

theorem checksumFilesLoop_abort (verbose : Bool) (pre : List TSMFile)
    (e : String) (rest : List (Except String TSMFile)) :
    ∀ totalErrors total,
      checksumFilesLoop verbose
          (pre.map Except.ok ++ Except.error e :: rest) totalErrors total =
        ((checksumFilesLoop verbose
            (pre.map Except.ok ++ [Except.error e]) totalErrors total).1,
          Except.error e) := by
  induction pre with
  | nil => intro te t; simp [checksumFilesLoop]
  | cons f fs ih =>
      intro te t
      simp only [List.map_cons, List.cons_append, checksumFilesLoop,
        List.append_eq]
      rw [ih]

theorem checksumFilesLoop_abort_no_summary (verbose : Bool)
    (pre : List TSMFile) (e : String) :
    ∀ totalErrors total bad tot,
      Output.brokenSummary bad tot ∉
        (checksumFilesLoop verbose
          (pre.map Except.ok ++ [Except.error e]) totalErrors total).1 := by
  induction pre with
  | nil => intro te t bad tot; simp [checksumFilesLoop]
  | cons f fs ih =>
      intro te t bad tot
      have hblocks := (checksumBlocksLoop_no_summary verbose f.path f.blocks
        t te 0 0 bad tot).1
      simp only [List.map_cons, List.cons_append, checksumFilesLoop,
        List.append_eq]
      intro hmem
      rcases List.mem_append.1 hmem with h | h
      · split at h
        · rcases List.mem_append.1 h with h' | h'
          · exact hblocks h'
          · simp at h'
        · exact hblocks h
      · exact ih _ _ bad tot h

theorem utf8FilesLoop_abort (verbose : Bool) (pre : List TSMFile)
    (e : String) (rest : List (Except String TSMFile)) :
    ∀ totalErrors total,
      utf8FilesLoop verbose
          (pre.map Except.ok ++ Except.error e :: rest) totalErrors total =
        ((utf8FilesLoop verbose
            (pre.map Except.ok ++ [Except.error e]) totalErrors total).1,
          Except.error e) := by
  induction pre with
  | nil => intro te t; simp [utf8FilesLoop]
  | cons f fs ih =>
      intro te t
      simp only [List.map_cons, List.cons_append, utf8FilesLoop,
        List.append_eq]
      rw [ih]

theorem utf8FilesLoop_abort_no_summary (verbose : Bool)
    (pre : List TSMFile) (e : String) :
    ∀ totalErrors total bad tot,
      Output.invalidKeySummary bad tot ∉
        (utf8FilesLoop verbose
          (pre.map Except.ok ++ [Except.error e]) totalErrors total).1 := by
  induction pre with
  | nil => intro te t bad tot; simp [utf8FilesLoop]
  | cons f fs ih =>
      intro te t bad tot
      have hkeys := (utf8KeysLoop_no_summary verbose f.path f.keys
        0 te 0 bad tot).2
      simp only [List.map_cons, List.cons_append, utf8FilesLoop,
        List.append_eq]
      intro hmem
      rcases List.mem_append.1 hmem with h | h
      · split at h
        · rcases List.mem_append.1 h with h' | h'
          · exact hkeys h'
          · simp at h'
        · exact hkeys h
      · exact ih _ _ bad tot h

/-! ## `verify-tombstone` (`cmd/influxd/inspect/verify_tombstone`)

The command walks the engine path, collects `.tombstone` files, and for
each one checks `HasTombstones()` and then `Walk`s its entries with a
visitor that only counts and prints.  The `tsm1.Tombstoner` is not part
of the sources here, so a tombstone file is modelled by what the verifier
observes of it. -/

/-- One tombstone entry `tsm1.Tombstone`: a key and an inclusive time
range. -/
structure Tombstone where
  key : List Nat
  min : Int
  max : Int
  deriving Repr, DecidableEq

/-- A `.tombstone` file as observed by the verifier.

Modelled from the spec: `tsm1.Tombstoner` is not under `src/`; per §4.4
`HasTombstones` reports whether the file has entries, and `Walk` invokes
the visitor on each entry in append order — the entries successfully
delivered are `entries`, and `walkErr` is the error that aborted the walk
after them (`none` when the walk ran to completion). -/
structure TombstoneFile where
  path : String
  hasTombstones : Bool
  entries : List Tombstone
  walkErr : Option String
  deriving Repr, DecidableEq

/-- One `Printf` event of `verify-tombstone`. -/
inductive TombOutput where
  /-- "Verifying: `path`" (verbosity above quiet) -/
  | verifying (path : String)
  /-- "`path` has no tombstone entries" -/
  | noEntries (path : String)
  /-- "Verified `n` tombstone entries" (periodic progress) -/
  | progress (n : Nat)
  /-- "key: `key`, min: …, max: …" (very verbose; `asTime` selects the
  `time.Unix` rendering of the dead `> veryVerbose` branch) -/
  | entry (key : List Nat) (min max : Int) (asTime : Bool)
  /-- "`path` failed to walk tombstone entries: `err`. Last okay entry:
  `lastOkay`" -/
  | walkFailed (path : String) (err : String) (lastOkay : Nat)
  /-- "Completed verification for `path` in ….\nVerified `n` entries" -/
  | completed (path : String) (n : Nat)
  /-- "No tombstone files found" -/
  | noFiles
  deriving Repr, DecidableEq

/-- Verbosity levels (part_001 lines 26-30): `quiet`, `verbose`,
`veryVerbose` as `0`, `1`, `2`. -/
def quietLevel : Nat := 0

/-- The `Walk` visitor of `verifier.run` (part_001 lines 103-117): counts
entries, printing progress or per-entry lines depending on verbosity.
Returns the printed events and the final `totalEntries`. -/
def tombEntriesLoop (verbosity : Nat) : List Tombstone → Nat → List TombOutput × Nat
  | [], n => ([], n)
  | t :: ts, n =>
      let n' := n + 1
      let out :=
        if verbosity > 0 && n' % 10000000 == 0 then [TombOutput.progress n']
        else if verbosity > 1 then
          [TombOutput.entry t.key t.min t.max (verbosity > 2)]
        else []
      let rest := tombEntriesLoop verbosity ts n'
      (out ++ rest.1, rest.2)

/-- The file loop of `verifier.run` (part_001 lines 90-125), carrying the
`failed` and `foundTombstoneFile` flags.  Returns the printed events and
the final flags `(failed, found)`. -/
def tombFilesLoop (verbosity : Nat) :
    List TombstoneFile → Bool → Bool → List TombOutput × Bool × Bool
  | [], failed, found => ([], failed, found)
  | f :: fs, failed, _found =>
      let out0 := if verbosity > 0 then [TombOutput.verifying f.path] else []
      if !f.hasTombstones then
        let rest := tombFilesLoop verbosity fs failed true
        (out0 ++ [TombOutput.noEntries f.path] ++ rest.1, rest.2)
      else
        let w := tombEntriesLoop verbosity f.entries 0
        match f.walkErr with
        | some e =>
            let rest := tombFilesLoop verbosity fs true true
            (out0 ++ w.1 ++ [TombOutput.walkFailed f.path e w.2] ++ rest.1,
              rest.2)
        | none =>
            let rest := tombFilesLoop verbosity fs failed true
            (out0 ++ w.1 ++ [TombOutput.completed f.path w.2] ++ rest.1,
              rest.2)

/-- `verifier.run` (part_001 lines 82-134), given the `.tombstone` files
discovered under the engine path (in discovery order): after the loop,
return a non-`nil` error if any walk failed; otherwise print "No
tombstone files found" when no file was seen, and return `nil`. -/
def verifyTombstoneRun (verbosity : Nat) (files : List TombstoneFile) :
    List TombOutput × Except String Unit :=
  let r := tombFilesLoop verbosity files false false
  if r.2.1 then (r.1, Except.error "failed tombstone verification")
  else if !r.2.2 then (r.1 ++ [TombOutput.noFiles], Except.ok ())
  else (r.1, Except.ok ())

/-- A tombstone file whose walk aborts before completion. -/
def tombFileFails (f : TombstoneFile) : Bool :=
  f.hasTombstones && f.walkErr.isSome

/-- The visitor counts exactly the delivered entries. -/
theorem tombEntriesLoop_count (verbosity : Nat) (ts : List Tombstone) :
    ∀ n, (tombEntriesLoop verbosity ts n).2 = n + ts.length := by
  induction ts with
  | nil => intro n; simp [tombEntriesLoop]
  | cons t ts ih => intro n; simp [tombEntriesLoop, ih]; omega

/-- The `failed` flag after the loop records whether some file's walk
failed; the `found` flag records whether any file was seen. -/
theorem tombFilesLoop_flags (verbosity : Nat) (files : List TombstoneFile) :
    ∀ failed found,
      (tombFilesLoop verbosity files failed found).2 =
        (failed || files.any tombFileFails, found || !files.isEmpty) := by
  induction files with
  | nil => intro failed found; simp [tombFilesLoop]
  | cons f fs ih =>
      intro failed found
      by_cases hh : f.hasTombstones
      · cases hw : f.walkErr with
        | some e =>
            simp [tombFilesLoop, hh, hw, ih, tombFileFails]
        | none =>
            simp [tombFilesLoop, hh, hw, ih, tombFileFails]
      · simp [tombFilesLoop, hh, ih, tombFileFails]

/-- `verifier.run` returns its only error, "failed tombstone
verification", exactly when some file's walk failed. -/
theorem verifyTombstoneRun_snd (verbosity : Nat) (files : List TombstoneFile) :
    (verifyTombstoneRun verbosity files).2 =
      (if files.any tombFileFails
        then Except.error "failed tombstone verification"
        else Except.ok ()) := by
  unfold verifyTombstoneRun
  have hf := tombFilesLoop_flags verbosity files false false
  rcases hr : tombFilesLoop verbosity files false false with ⟨outs, failed, found⟩
  rw [hr] at hf
  simp only at hf
  have h1 : failed = files.any tombFileFails := by
    have := congrArg Prod.fst hf; simpa using this
  subst h1
  by_cases hfail : files.any tombFileFails
  · simp [hfail]
  · simp only [hfail]
    by_cases hfound : found <;> simp [hfound]

/-- Everything printed by the file loop is printed by `run`. -/
theorem verifyTombstoneRun_mem (verbosity : Nat) (files : List TombstoneFile)
    (x : TombOutput)
    (hx : x ∈ (tombFilesLoop verbosity files false false).1) :
    x ∈ (verifyTombstoneRun verbosity files).1 := by
  simp only [verifyTombstoneRun]
  split
  · exact hx
  · split
    · exact List.mem_append_left _ hx
    · exact hx

/-- A file whose walk completes has its entry count printed in its
"Completed verification" line. -/
theorem tombFilesLoop_completed_mem (verbosity : Nat)
    (files : List TombstoneFile) (f : TombstoneFile) (hf : f ∈ files)
    (hh : f.hasTombstones = true) (hw : f.walkErr = none) :
    ∀ failed found,
      TombOutput.completed f.path f.entries.length ∈
        (tombFilesLoop verbosity files failed found).1 := by
  induction files with
  | nil => cases hf
  | cons g gs ih =>
      intro failed found
      rcases List.mem_cons.1 hf with rfl | hmem
      · have hcount := tombEntriesLoop_count verbosity f.entries 0
        simp [tombFilesLoop, hh, hw, hcount]
      · by_cases hg : g.hasTombstones = true
        · cases hgw : g.walkErr with
          | some e =>
              simp only [tombFilesLoop, hgw]
              rw [if_neg (by simp [hg])]
              exact List.mem_append_right _ (ih hmem true true)
          | none =>
              simp only [tombFilesLoop, hgw]
              rw [if_neg (by simp [hg])]
              exact List.mem_append_right _ (ih hmem failed true)
        · have hg' : g.hasTombstones = false := by simpa using hg
          simp only [tombFilesLoop, hg']
          rw [if_pos (by decide)]
          exact List.mem_append_right _ (ih hmem failed true)

/-- A file whose walk aborts has the walk error and the count of entries
processed before the failure printed in its failure line. -/
theorem tombFilesLoop_walkFailed_mem (verbosity : Nat)
    (files : List TombstoneFile) (f : TombstoneFile) (e : String)
    (hf : f ∈ files) (hh : f.hasTombstones = true)
    (hw : f.walkErr = some e) :
    ∀ failed found,
      TombOutput.walkFailed f.path e f.entries.length ∈
        (tombFilesLoop verbosity files failed found).1 := by
  induction files with
  | nil => cases hf
  | cons g gs ih =>
      intro failed found
      rcases List.mem_cons.1 hf with rfl | hmem
      · have hcount := tombEntriesLoop_count verbosity f.entries 0
        simp [tombFilesLoop, hh, hw, hcount]
      · by_cases hg : g.hasTombstones = true
        · cases hgw : g.walkErr with
          | some e' =>
              simp only [tombFilesLoop, hgw]
              rw [if_neg (by simp [hg])]
              exact List.mem_append_right _ (ih hmem true true)
          | none =>
              simp only [tombFilesLoop, hgw]
              rw [if_neg (by simp [hg])]
              exact List.mem_append_right _ (ih hmem failed true)
        · have hg' : g.hasTombstones = false := by simpa using hg
          simp only [tombFilesLoop, hg']
          rw [if_pos (by decide)]
          exact List.mem_append_right _ (ih hmem failed true)

/-! ## Engine `Config` (the `storage` package) -/

/-- Go `time.Duration` counts nanoseconds; `time.Second` is `10^9`. -/
def durationSecond : Int := 1000000000

/-- `DefaultWriteTimeout`: "the default timeout for a complete write to
succeed", `10 * time.Second`. -/
def DefaultWriteTimeout : Int := 10 * durationSecond

/-- The storage engine `Config`.  `tsdb.Config`, `retention.Config` and
`precreator.Config` come from packages not under `src/` and carry nothing
the claims need; they are modelled as `Unit` placeholders. -/
structure Config where
  Data : Unit
  WriteTimeout : Int
  RetentionService : Unit
  PrecreatorConfig : Unit
  deriving Repr, DecidableEq

/-- `NewConfig` initialises a new config for an Engine. -/
def NewConfig : Config :=
  { Data := ()
    WriteTimeout := DefaultWriteTimeout
    RetentionService := ()
    PrecreatorConfig := () }

/-! ## Support lemmas for the claim theorems -/

/-- The accumulated invalid-key count is positive exactly when some
scanned file has a key that is not valid UTF-8. -/
theorem invalidKeys_pos_iff (files : List TSMFile) :
    0 < invalidKeys files ↔
      ∃ f ∈ files, ∃ k ∈ f.keys, validUTF8 k = false := by
  rw [Nat.pos_iff_ne_zero]
  constructor
  · intro h
    by_contra hno
    push_neg at hno
    apply h
    unfold invalidKeys
    rw [List.sum_eq_zero]
    intro x hx
    rcases List.mem_map.1 hx with ⟨f, hf, rfl⟩
    rw [List.countP_eq_zero]
    intro k hk
    simp [hno f hf k hk]
  · rintro ⟨f, hf, k, hk, hbad⟩ hzero
    unfold invalidKeys at hzero
    rw [List.sum_eq_zero_iff] at hzero
    have := hzero (f.keys.countP (fun k => !validUTF8 k))
      (List.mem_map.2 ⟨f, hf, rfl⟩)
    rw [List.countP_eq_zero] at this
    exact absurd (by simp [hbad]) (this k hk)

/-- A `TSMFile` with the data blocks dropped: what `--check-utf8` mode
can observe. -/
def stripBlocks (f : TSMFile) : TSMFile :=
  { f with blocks := [] }

/-- `verifyUTF8.run` never reads data blocks: its entire behaviour is
unchanged when every file's block list is discarded. -/
theorem utf8FilesLoop_ignores_blocks (verbose : Bool)
    (files : List TSMFile) :
    ∀ totalErrors total,
      utf8FilesLoop verbose ((files.map stripBlocks).map Except.ok)
          totalErrors total =
        utf8FilesLoop verbose (files.map Except.ok) totalErrors total := by
  induction files with
  | nil => intro te t; rfl
  | cons f fs ih =>
      intro te t
      simp only [List.map_cons, utf8FilesLoop, stripBlocks]
      rw [ih]

/-! ## Claim theorems -/

/-- Claim C1, counterexample: a directory with one TSM file containing a
single block whose stored checksum (`1`) differs from the CRC-32 of its
raw bytes (`[1, 2, 3]`).  The run reports `Broken Blocks: 1 / 1` — yet it
returns `nil` (a zero exit status), refuting the claim that a checksum
mismatch makes `verify-tsm`'s default mode return a non-nil error. -/
theorem claimC1_counterexample :
    blockBroken (Block.mk [99, 112, 117] 1 [1, 2, 3] false) = true ∧
    verifyChecksumsRun false
        [Except.ok (TSMFile.mk "corrupt.tsm" [[99, 112, 117]]
          [Block.mk [99, 112, 117] 1 [1, 2, 3] false])] =
      ([Output.brokenSummary 1 1], Except.ok ()) := by
  constructor
  · decide
  · rfl

/-- Claim C1 (amended): in default (checksum) mode, when every discovered
TSM file is readable, `verify-tsm` prints `Broken Blocks: <bad>/<total>`
but always returns a `nil` error (exit status zero), regardless of how
many blocks are broken; in particular the one-corrupted-block directory
of the counterexample reports `Broken Blocks: 1/1` and still exits
zero. -/
theorem claimC1 (verbose : Bool) (files : List TSMFile) :
    (verifyChecksumsRun verbose (files.map Except.ok)).2 = Except.ok () ∧
    Output.brokenSummary (brokenBlocks files) (totalBlocks files) ∈
      (verifyChecksumsRun verbose (files.map Except.ok)).1 := by
  constructor
  · exact checksumFilesLoop_ok_snd verbose files 0 0
  · have h := checksumFilesLoop_summary verbose files 0 0
    simpa using h

/-- Claim C2: in default mode, the summary line reports as total the
number of blocks yielded by the block iterators of all discovered files,
and as bad the number of blocks whose read failed or whose recomputed
CRC-32 differs from the stored checksum. -/
theorem claimC2 (verbose : Bool) (files : List TSMFile) :
    Output.brokenSummary
        ((files.map (fun f => f.blocks.countP
          (fun b => b.readErr || b.checksum != ChecksumIEEE b.buf))).sum)
        ((files.map (fun f => f.blocks.length)).sum) ∈
      (verifyChecksumsRun verbose (files.map Except.ok)).1 := by
  have h := checksumFilesLoop_summary verbose files 0 0
  simpa [brokenBlocks, totalBlocks, blockBroken] using h

/-- Claim C3: `--check-utf8` mode returns a non-nil error exactly when
some series key across the scanned files is not valid UTF-8, and returns
`nil` when every key is valid. -/
theorem claimC3 (verbose : Bool) (files : List TSMFile) :
    ((verifyUTF8Run verbose (files.map Except.ok)).2 =
        Except.error "check-utf8: failed" ↔
      ∃ f ∈ files, ∃ k ∈ f.keys, validUTF8 k = false) ∧
    ((∀ f ∈ files, ∀ k ∈ f.keys, validUTF8 k = true) →
      (verifyUTF8Run verbose (files.map Except.ok)).2 = Except.ok ()) := by
  have hsnd : (verifyUTF8Run verbose (files.map Except.ok)).2 =
      (if 0 + invalidKeys files > 0
        then Except.error "check-utf8: failed" else Except.ok ()) :=
    utf8FilesLoop_ok_snd verbose files 0 0
  have hpos := invalidKeys_pos_iff files
  by_cases hcase : 0 < invalidKeys files
  · obtain ⟨f, hf, k, hk, hbad⟩ := hpos.1 hcase
    refine ⟨⟨fun _ => ⟨f, hf, k, hk, hbad⟩, fun _ => ?_⟩, fun hall => ?_⟩
    · rw [hsnd]; simp [hcase]
    · exact absurd (hall f hf k hk) (by simp [hbad])
  · have hz : invalidKeys files = 0 := by omega
    refine ⟨⟨fun herr => ?_, fun hex => absurd (hpos.2 hex) hcase⟩,
      fun _ => ?_⟩
    · rw [hsnd] at herr; simp [hz] at herr
    · rw [hsnd]; simp [hz]

/-- Witness for C3: a file whose single key is the byte `0xFF` (not valid
UTF-8) makes the run error; a file whose single key is ASCII "hi" makes
it return `nil`. -/
theorem claimC3_witness :
    (verifyUTF8Run false
        [Except.ok (TSMFile.mk "bad.tsm" [[255]] [])]).2 =
      Except.error "check-utf8: failed" ∧
    (verifyUTF8Run false
        [Except.ok (TSMFile.mk "good.tsm" [[104, 105]] [])]).2 =
      Except.ok () :=
  ⟨(claimC3 false [TSMFile.mk "bad.tsm" [[255]] []]).1.mpr
      ⟨TSMFile.mk "bad.tsm" [[255]] [], by simp, [255], by simp, by decide⟩,
    (claimC3 false [TSMFile.mk "good.tsm" [[104, 105]] []]).2
      (by intro f hf k hk; simp at hf; subst hf; simp at hk; subst hk; decide)⟩

/-- Claim C4: in `--check-utf8` mode the summary reports as total the sum
of `KeyCount` over all scanned files and as bad the number of
`(file, key-index)` pairs whose key bytes are not valid UTF-8 (each key
of each file is examined exactly once by the ordinal loop), and the whole
run is unchanged if every file's data blocks are discarded — no data
blocks are read. -/
theorem claimC4 (verbose : Bool) (files : List TSMFile) :
    Output.invalidKeySummary
        ((files.map (fun f => f.keys.countP (fun k => !validUTF8 k))).sum)
        ((files.map (fun f => f.keys.length)).sum) ∈
      (verifyUTF8Run verbose (files.map Except.ok)).1 ∧
    verifyUTF8Run verbose ((files.map stripBlocks).map Except.ok) =
      verifyUTF8Run verbose (files.map Except.ok) := by
  constructor
  · have h := utf8FilesLoop_summary verbose files 0 0
    simpa [invalidKeys, totalKeys] using h
  · exact utf8FilesLoop_ignores_blocks verbose files 0 0

/-- Claim C5: `verify-tombstone` returns a non-nil error exactly when at
least one tombstone file's walk fails before completion, and every file
with tombstones whose walk completes has its entry count reported. -/
theorem claimC5 (verbosity : Nat) (files : List TombstoneFile) :
    ((verifyTombstoneRun verbosity files).2 =
        Except.error "failed tombstone verification" ↔
      ∃ f ∈ files, f.hasTombstones = true ∧ f.walkErr.isSome = true) ∧
    (∀ f ∈ files, f.hasTombstones = true → f.walkErr = none →
      TombOutput.completed f.path f.entries.length ∈
        (verifyTombstoneRun verbosity files).1) := by
  constructor
  · rw [verifyTombstoneRun_snd]
    constructor
    · intro h
      split at h
      · next hany =>
          rcases List.any_eq_true.1 hany with ⟨f, hf, hff⟩
          rw [tombFileFails, Bool.and_eq_true] at hff
          exact ⟨f, hf, hff⟩
      · exact absurd h (by simp)
    · rintro ⟨f, hf, hh, hw⟩
      have hany : files.any tombFileFails = true :=
        List.any_eq_true.2 ⟨f, hf, by simp [tombFileFails, hh, hw]⟩
      simp [hany]
  · intro f hf hh hw
    exact verifyTombstoneRun_mem verbosity files _
      (tombFilesLoop_completed_mem verbosity files f hf hh hw false false)

/-- Witness for C5: a single tombstone file with one entry and a
completing walk has `Verified 1 entries` reported and the run returns
`nil`. -/
theorem claimC5_witness :
    TombOutput.completed "a.tombstone" 1 ∈
      (verifyTombstoneRun 0
        [TombstoneFile.mk "a.tombstone" true [Tombstone.mk [1] 0 5] none]).1 :=
  (claimC5 0 [TombstoneFile.mk "a.tombstone" true [Tombstone.mk [1] 0 5] none]).2
    (TombstoneFile.mk "a.tombstone" true [Tombstone.mk [1] 0 5] none)
    (by simp) rfl rfl

/-- Claim C6: when a tombstone file's walk aborts with an error, the
failure line surfaces that error together with the number of entries
successfully processed before the failure, and the run returns a non-nil
error. -/
theorem claimC6 (verbosity : Nat) (files : List TombstoneFile)
    (f : TombstoneFile) (e : String) (hf : f ∈ files)
    (hh : f.hasTombstones = true) (hw : f.walkErr = some e) :
    TombOutput.walkFailed f.path e f.entries.length ∈
      (verifyTombstoneRun verbosity files).1 ∧
    (verifyTombstoneRun verbosity files).2 =
      Except.error "failed tombstone verification" := by
  constructor
  · exact verifyTombstoneRun_mem verbosity files _
      (tombFilesLoop_walkFailed_mem verbosity files f e hf hh hw false false)
  · rw [verifyTombstoneRun_snd]
    have hany : files.any tombFileFails = true :=
      List.any_eq_true.2 ⟨f, hf, by simp [tombFileFails, hh, hw]⟩
    simp [hany]

/-- Witness for C6: a tombstone file whose walk aborts with "corrupt"
after one entry has `Last okay entry: 1` reported with the error, and
the run errors. -/
theorem claimC6_witness :
    TombOutput.walkFailed "bad.tombstone" "corrupt" 1 ∈
      (verifyTombstoneRun 0
        [TombstoneFile.mk "bad.tombstone" true [Tombstone.mk [1] 0 5]
          (some "corrupt")]).1 ∧
    (verifyTombstoneRun 0
        [TombstoneFile.mk "bad.tombstone" true [Tombstone.mk [1] 0 5]
          (some "corrupt")]).2 =
      Except.error "failed tombstone verification" :=
  claimC6 0
    [TombstoneFile.mk "bad.tombstone" true [Tombstone.mk [1] 0 5]
      (some "corrupt")]
    (TombstoneFile.mk "bad.tombstone" true [Tombstone.mk [1] 0 5]
      (some "corrupt"))
    "corrupt" (by simp) rfl rfl

/-- Claim C7: "no tombstone files found" and "a tombstone file with no
tombstone entries" are non-error outcomes reported only by printed
messages; absent any walk failure the command returns `nil`. -/
theorem claimC7 (verbosity : Nat) :
    verifyTombstoneRun verbosity [] = ([TombOutput.noFiles], Except.ok ()) ∧
    (∀ files : List TombstoneFile, (∀ f ∈ files, tombFileFails f = false) →
      (verifyTombstoneRun verbosity files).2 = Except.ok ()) ∧
    (∀ f : TombstoneFile, f.hasTombstones = false →
      verifyTombstoneRun 0 [f] =
        ([TombOutput.noEntries f.path], Except.ok ())) := by
  refine ⟨rfl, fun files hnone => ?_, fun f hf => ?_⟩
  · rw [verifyTombstoneRun_snd]
    have hany : files.any tombFileFails = false :=
      List.any_eq_false.2 (fun x hx => by simp [hnone x hx])
    simp [hany]
  · simp [verifyTombstoneRun, tombFilesLoop, hf]

/-- Witness for C7: the empty directory and a directory with one
entry-less tombstone file both return `nil`. -/
theorem claimC7_witness :
    verifyTombstoneRun 0 [] = ([TombOutput.noFiles], Except.ok ()) ∧
    (verifyTombstoneRun 0
        [TombstoneFile.mk "e.tombstone" false [] none]).2 = Except.ok () ∧
    verifyTombstoneRun 0 [TombstoneFile.mk "e.tombstone" false [] none] =
      ([TombOutput.noEntries "e.tombstone"], Except.ok ()) :=
  ⟨(claimC7 0).1,
    (claimC7 0).2.1 [TombstoneFile.mk "e.tombstone" false [] none]
      (by intro f hf; simp at hf; subst hf; rfl),
    (claimC7 0).2.2 (TombstoneFile.mk "e.tombstone" false [] none) rfl⟩

/-- Claim C8: the engine's default write timeout is exactly 10 seconds
(`10 * time.Second` nanoseconds), and `NewConfig` installs it as the
`WriteTimeout` field. -/
theorem claimC8 :
    NewConfig.WriteTimeout = DefaultWriteTimeout ∧
    DefaultWriteTimeout = 10 * durationSecond ∧
    durationSecond = 1000000000 :=
  ⟨rfl, rfl, rfl⟩

/-- Claim C9: flipping any single bit of any byte sequence changes its
CRC-32 (IEEE); hence a block whose stored checksum matches its bytes is
counted healthy, while the same block with one bit flipped in its raw
bytes fails the checksum comparison. -/
theorem claimC9 (bs : List Nat) (j k : Nat) (key : List Nat)
    (hbs : BytesValid bs) (hj : j < bs.length) (hk : k < 8) :
    ChecksumIEEE (flipBit bs j k) ≠ ChecksumIEEE bs ∧
    blockBroken (Block.mk key (ChecksumIEEE bs) bs false) = false ∧
    blockBroken (Block.mk key (ChecksumIEEE bs) (flipBit bs j k) false) =
      true := by
  have hne := crc32_flip_ne hbs hj hk
  refine ⟨hne, by simp [blockBroken], ?_⟩
  simpa [blockBroken] using Ne.symm hne

set_option maxRecDepth 8000 in
/-- Witness for C9: flipping bit 0 of the single byte `0` changes the
checksum, and the corresponding one-block comparisons behave as
claimed. -/
theorem claimC9_witness :
    ChecksumIEEE (flipBit [0] 0 0) ≠ ChecksumIEEE [0] ∧
    blockBroken (Block.mk [] (ChecksumIEEE [0]) [0] false) = false ∧
    blockBroken (Block.mk [] (ChecksumIEEE [0]) (flipBit [0] 0 0) false) =
      true :=
  claimC9 [0] 0 0 [] (by decide) (by decide) (by decide)

/-- Claim C10: in both `verify-tsm` modes, a failing reader construction
for one file aborts the whole run with that error: the result is exactly
that error, no aggregate summary line is ever printed, and the output is
the same whatever files were discovered after the failing one. -/
theorem claimC10 (verbose : Bool) (pre : List TSMFile) (e : String)
    (rest : List (Except String TSMFile)) :
    (verifyChecksumsRun verbose
        (pre.map Except.ok ++ Except.error e :: rest)).2 = Except.error e ∧
    (∀ bad tot, Output.brokenSummary bad tot ∉
      (verifyChecksumsRun verbose
        (pre.map Except.ok ++ Except.error e :: rest)).1) ∧
    (verifyChecksumsRun verbose
        (pre.map Except.ok ++ Except.error e :: rest)).1 =
      (verifyChecksumsRun verbose (pre.map Except.ok ++ [Except.error e])).1 ∧
    (verifyUTF8Run verbose
        (pre.map Except.ok ++ Except.error e :: rest)).2 = Except.error e ∧
    (∀ bad tot, Output.invalidKeySummary bad tot ∉
      (verifyUTF8Run verbose
        (pre.map Except.ok ++ Except.error e :: rest)).1) ∧
    (verifyUTF8Run verbose
        (pre.map Except.ok ++ Except.error e :: rest)).1 =
      (verifyUTF8Run verbose (pre.map Except.ok ++ [Except.error e])).1 := by
  have hc := checksumFilesLoop_abort verbose pre e rest 0 0
  have hcn := checksumFilesLoop_abort_no_summary verbose pre e 0 0
  have hu := utf8FilesLoop_abort verbose pre e rest 0 0
  have hun := utf8FilesLoop_abort_no_summary verbose pre e 0 0
  refine ⟨?_, fun bad tot => ?_, ?_, ?_, fun bad tot => ?_, ?_⟩
  · show (checksumFilesLoop verbose _ 0 0).2 = _
    rw [hc]
  · show Output.brokenSummary bad tot ∉ (checksumFilesLoop verbose _ 0 0).1
    rw [hc]
    exact hcn bad tot
  · show (checksumFilesLoop verbose _ 0 0).1 = _
    rw [hc]
    rfl
  · show (utf8FilesLoop verbose _ 0 0).2 = _
    rw [hu]
  · show Output.invalidKeySummary bad tot ∉ (utf8FilesLoop verbose _ 0 0).1
    rw [hu]
    exact hun bad tot
  · show (utf8FilesLoop verbose _ 0 0).1 = _
    rw [hu]
    rfl

end InfluxVerify
